import Mathlib

/-!
Shallow embedding of the CHIP-8 interpreter (Go sources, most complete draft:
type `Chip8` with methods `Init`, `LoadROM`, `StartTimers`, `Fetch`, `Execute`).

Conventions of the embedding:
* Go `byte` / `uint16` values are `Nat` with explicit `% 256` / `% 65536`
  at the points where the Go type truncates (writes and wrapping arithmetic).
* Go fixed arrays are modelled as total functions from `Nat`; out-of-range
  array indexing, which panics in Go, is modelled as an `Except` error.
* `panic` (stack overflow/underflow, program counter out of bounds, index out
  of range) becomes an explicit `ExecErr`.
* The clock-derived random byte of opcode `CXNN`
  (`byte(time.Now().Nanosecond() % 256)`) is passed in as parameter `rand`.
-/

set_option maxRecDepth 4000

namespace Chip8Spec

/-- Machine state, translated from the Go struct `Chip8`. -/
structure Chip8 where
  /-- `memory [4096]byte` -/
  memory : Nat → Nat
  /-- `display [64][32]bool` -/
  display : Nat → Nat → Bool
  /-- `PC uint16` program counter -/
  PC : Nat
  /-- `I uint16` index register -/
  I : Nat
  /-- `stack [16]uint16` stack for subroutines -/
  stack : Nat → Nat
  /-- `SP byte` stack pointer -/
  SP : Nat
  /-- `V [16]byte` 8 bit general registers -/
  V : Nat → Nat
  /-- `DT byte` delay timer -/
  DT : Nat
  /-- `ST byte` sound timer -/
  ST : Nat
  /-- `keys [16]bool` -/
  keys : Nat → Bool

/-- Pointwise array update (Go `a[i] = v`). -/
def upd (f : Nat → Nat) (i v : Nat) : Nat → Nat :=
  fun j => if j = i then v else f j

/-- Pointwise display update (Go `c.display[x][y] = b`). -/
def updD (d : Nat → Nat → Bool) (x y : Nat) (b : Bool) : Nat → Nat → Bool :=
  fun p q => if p = x ∧ q = y then b else d p q

/-- The Go zero value `Chip8{}` of the machine struct. -/
def zeroChip8 : Chip8 :=
  { memory := fun _ => 0
    display := fun _ _ => false
    PC := 0
    I := 0
    stack := fun _ => 0
    SP := 0
    V := fun _ => 0
    DT := 0
    ST := 0
    keys := fun _ => false }

/-- Go global `var fontset = [80]byte` with the built-in 80-byte font glyph set. -/
def fontset : List Nat :=
  [0xF0, 0x90, 0x90, 0x90, 0xF0,
   0x20, 0x60, 0x20, 0x20, 0x70,
   0xF0, 0x10, 0xF0, 0x80, 0xF0,
   0xF0, 0x10, 0xF0, 0x10, 0xF0,
   0x90, 0x90, 0xF0, 0x10, 0x10,
   0xF0, 0x80, 0xF0, 0x10, 0xF0,
   0xF0, 0x80, 0xF0, 0x90, 0xF0,
   0xF0, 0x10, 0x20, 0x40, 0x40,
   0xF0, 0x90, 0xF0, 0x90, 0xF0,
   0xF0, 0x90, 0xF0, 0x10, 0xF0,
   0xF0, 0x90, 0xF0, 0x90, 0x90,
   0xE0, 0x90, 0xE0, 0x90, 0xE0,
   0xF0, 0x80, 0x80, 0x80, 0xF0,
   0xE0, 0x90, 0x90, 0x90, 0xE0,
   0xF0, 0x80, 0xF0, 0x80, 0xF0,
   0xF0, 0x80, 0xF0, 0x80, 0x80]

/-- Go method `func (c *Chip8) Init()`: set `PC = 0x200` and
`copy(c.memory[0:80], fontset[:])`.  Note: the Go method does not clear any
other field; a fresh machine is zeroed only because Go zero-initializes the
struct literal `Chip8{}`. -/
def Chip8.Init (c : Chip8) : Chip8 :=
  { c with
    PC := 0x200
    memory := fun a => if a < 80 then fontset.getD a 0 else c.memory a }

/-- Load-time failure of `LoadROM` (the `fmt.Errorf("ROM too large: ...")`
branch; `os.ReadFile` failures are a host concern and not modelled). -/
inductive LoadErr where
  | romTooLarge
deriving DecidableEq

/-- Go method `func (c *Chip8) LoadROM`: reject the data if
`len(data) > 4096-0x200`, otherwise `copy(c.memory[0x200:0x200+len(data)], data)`.
The file read is a host concern; the byte contents are the parameter. -/
def Chip8.LoadROM (c : Chip8) (data : List Nat) : Except LoadErr Chip8 :=
  if data.length > 4096 - 0x200 then
    .error .romTooLarge
  else
    .ok { c with
          memory := fun a =>
            if 0x200 ≤ a ∧ a < 0x200 + data.length then data.getD (a - 0x200) 0
            else c.memory a }

/-- One 60 Hz tick of the goroutine started by `StartTimers`:
`if c.DT > 0 { c.DT-- }; if c.ST > 0 { c.ST-- }`. -/
def Chip8.timerTick (c : Chip8) : Chip8 :=
  { c with
    DT := if 0 < c.DT then c.DT - 1 else c.DT
    ST := if 0 < c.ST then c.ST - 1 else c.ST }

/-- Iterated ticking: `k` successive ticks of the timer goroutine. -/
def Chip8.timerTicks : Nat → Chip8 → Chip8
  | 0, c => c
  | k + 1, c => Chip8.timerTicks k c.timerTick

/-- Fatal runtime conditions: the Go `panic` calls of `Fetch`/`Execute` and
Go's run-time out-of-range array indexing panics. -/
inductive ExecErr where
  | pcOutOfBounds
  | stackUnderflow
  | stackOverflow
  | indexOutOfRange
deriving DecidableEq

/-- Go method `func (c *Chip8) Fetch()`: panic if `int(c.PC)+1 >= len(c.memory)`,
otherwise return `uint16(memory[PC])<<8 | uint16(memory[PC+1])` and advance
`PC` by 2 (uint16 wraparound). -/
def Chip8.Fetch (c : Chip8) : Except ExecErr (Nat × Chip8) :=
  if c.PC + 1 ≥ 4096 then .error .pcOutOfBounds
  else
    .ok ((c.memory c.PC) <<< 8 ||| c.memory (c.PC + 1),
         { c with PC := (c.PC + 2) % 65536 })

/-- The inner column loop of opcode `DXYN`
(`for col := uint8(0); col < 8; col++`): toggle the pixel at
`((x+col) % 64, yPos)` when the sprite bit is set, recording a collision in
the flag component.  `fuel` counts the remaining columns. -/
def drawCols (fuel col sb xb yPos : Nat) (acc : (Nat → Nat → Bool) × Nat) :
    (Nat → Nat → Bool) × Nat :=
  match fuel with
  | 0 => acc
  | f + 1 =>
    let acc' :=
      if sb &&& (0x80 >>> col) ≠ 0 then
        let xPos := (xb + col) % 256 % 64
        let cur := acc.1 xPos yPos
        (updD acc.1 xPos yPos (!cur), if cur then 1 else acc.2)
      else acc
    drawCols f (col + 1) sb xb yPos acc'

/-- The outer row loop of opcode `DXYN`
(`for row := uint16(0); row < height; row++`): read the sprite byte at
`memory[I+row]` (an out-of-range index panics in Go) and process its eight
columns.  `fuel` counts the remaining rows. -/
def drawRows (fuel row : Nat) (mem : Nat → Nat) (iReg xb yb : Nat)
    (acc : (Nat → Nat → Bool) × Nat) :
    Except ExecErr ((Nat → Nat → Bool) × Nat) :=
  match fuel with
  | 0 => .ok acc
  | f + 1 =>
    let addr := (iReg + row) % 65536
    if addr ≥ 4096 then .error .indexOutOfRange
    else
      let sb := mem addr
      let yPos := (yb + row % 256) % 256 % 32
      drawRows f (row + 1) mem iReg xb yb (drawCols 8 0 sb xb yPos acc)

/-- The key-scan loop of opcode `FX0A`
(`for i := 0; i < 16; i++ { if c.keys[i] ... }`): the first pressed key. -/
def findPressed (keys : Nat → Bool) (i fuel : Nat) : Option Nat :=
  match fuel with
  | 0 => none
  | f + 1 => if keys i then some i else findPressed keys (i + 1) f

/-- The register-dump loop of opcode `FX55`
(`for i := uint16(0); i <= x; i++ { c.memory[c.I+i] = c.V[i] }`). -/
def storeLoop (fuel i : Nat) (V : Nat → Nat) (iReg : Nat) (mem : Nat → Nat) :
    Nat → Nat :=
  match fuel with
  | 0 => mem
  | f + 1 => storeLoop f (i + 1) V iReg (upd mem (iReg + i) (V i))

/-- The register-load loop of opcode `FX65`
(`for i := uint16(0); i <= x; i++ { c.V[i] = c.memory[c.I+i] }`). -/
def loadLoop (fuel i : Nat) (mem : Nat → Nat) (iReg : Nat) (V : Nat → Nat) :
    Nat → Nat :=
  match fuel with
  | 0 => V
  | f + 1 => loadLoop f (i + 1) mem iReg (upd V i (mem (iReg + i)))

/-- The `case 0x0000` arm of `Execute`: clear display (`00E0`), return from
subroutine (`00EE`, panicking on stack underflow), or the logging default. -/
def exec0 (op : Nat) (c : Chip8) : Except ExecErr Chip8 :=
  if op = 0x00E0 then
    .ok { c with display := fun _ _ => false }
  else if op = 0x00EE then
    if c.SP = 0 then .error .stackUnderflow
    else if c.SP - 1 ≥ 16 then .error .indexOutOfRange
    else .ok { c with SP := c.SP - 1, PC := c.stack (c.SP - 1) }
  else .ok c

/-- The `case 0x2000` arm of `Execute`: call subroutine, panicking when
`int(SP)+1 >= len(stack)`. -/
def exec2 (op : Nat) (c : Chip8) : Except ExecErr Chip8 :=
  if c.SP + 1 ≥ 16 then .error .stackOverflow
  else
    .ok { c with
          stack := upd c.stack c.SP c.PC
          SP := c.SP + 1
          PC := op &&& 0x0FFF }

/-- The `case 0x8000` arm of `Execute`: the ALU sub-switch on the low
nibble (sub-cases 0x8–0xD and 0xF fall through with no effect). -/
def exec8 (op : Nat) (c : Chip8) : Except ExecErr Chip8 :=
  let x := (op &&& 0x0F00) >>> 8
  let y := (op &&& 0x00F0) >>> 4
  if op &&& 0x000F = 0x0 then
    .ok { c with V := upd c.V x (c.V y) }
  else if op &&& 0x000F = 0x1 then
    .ok { c with V := upd c.V x (c.V x ||| c.V y) }
  else if op &&& 0x000F = 0x2 then
    .ok { c with V := upd c.V x (c.V x &&& c.V y) }
  else if op &&& 0x000F = 0x3 then
    .ok { c with V := upd c.V x (c.V x ^^^ c.V y) }
  else if op &&& 0x000F = 0x4 then
    let sum := (c.V x + c.V y) % 65536
    .ok { c with V := upd (upd c.V x (sum &&& 0xFF)) 0xF ((sum >>> 8) &&& 0x1) }
  else if op &&& 0x000F = 0x5 then
    let diff := (c.V x + 65536 - c.V y) % 65536
    let v1 := upd (upd c.V x (diff &&& 0xFF)) 0xF 0
    .ok { c with V := if v1 x > v1 y then upd v1 0xF 1 else v1 }
  else if op &&& 0x000F = 0x6 then
    let v1 := upd c.V 0xF (c.V x &&& 0x01)
    .ok { c with V := upd v1 x (v1 x >>> 1) }
  else if op &&& 0x000F = 0x7 then
    let diff := (c.V y + 65536 - c.V x) % 65536
    let v1 := upd (upd c.V x (diff &&& 0xFF)) 0xF 0
    .ok { c with V := if v1 y > v1 x then upd v1 0xF 1 else v1 }
  else if op &&& 0x000F = 0xE then
    let v1 := upd c.V 0xF ((c.V x &&& 0x80) >>> 7)
    .ok { c with V := upd v1 x ((v1 x <<< 1) % 256) }
  else .ok c

/-- The `case 0xD000` arm of `Execute`: draw an `N`-row sprite from
`memory[I..]` at `(V[X], V[Y])`, XOR-toggling pixels and collecting the
collision flag into `VF`. -/
def execD (op : Nat) (c : Chip8) : Except ExecErr Chip8 :=
  let xb := c.V ((op &&& 0x0F00) >>> 8)
  let yb := c.V ((op &&& 0x00F0) >>> 4)
  let height := op &&& 0x000F
  match drawRows height 0 c.memory c.I xb yb (c.display, 0) with
  | .error e => .error e
  | .ok (d, f) => .ok { c with display := d, V := upd c.V 0xF f }

/-- The `case 0xF000` arm of `Execute`: the miscellaneous sub-switch on the
low byte (unmatched low bytes fall through with no effect). -/
def execF (op : Nat) (c : Chip8) : Except ExecErr Chip8 :=
  let x := (op &&& 0x0F00) >>> 8
  if op &&& 0x00FF = 0x07 then
    .ok { c with V := upd c.V x c.DT }
  else if op &&& 0x00FF = 0x15 then
    .ok { c with DT := c.V x }
  else if op &&& 0x00FF = 0x18 then
    .ok { c with ST := c.V x }
  else if op &&& 0x00FF = 0x1E then
    let i := c.V x
    let vf := if (c.I + c.V x) % 65536 > 0xFFF then 1 else 0
    .ok { c with V := upd c.V 0xF vf, I := (c.I + i) % 65536 }
  else if op &&& 0x00FF = 0x0A then
    match findPressed c.keys 0 16 with
    | some i => .ok { c with V := upd c.V x i }
    | none => .ok { c with PC := (c.PC + 65536 - 2) % 65536 }
  else if op &&& 0x00FF = 0x29 then
    .ok { c with I := (c.V x &&& 0x0F) * 5 }
  else if op &&& 0x00FF = 0x33 then
    if c.I + 2 ≥ 4096 then .error .indexOutOfRange
    else
      let value := c.V x
      .ok { c with
            memory := upd (upd (upd c.memory c.I (value / 100))
              (c.I + 1) (value / 10 % 10)) (c.I + 2) (value % 10) }
  else if op &&& 0x00FF = 0x55 then
    if c.I + x ≥ 4096 then .error .indexOutOfRange
    else .ok { c with memory := storeLoop (x + 1) 0 c.V c.I c.memory }
  else if op &&& 0x00FF = 0x65 then
    if c.I + x ≥ 4096 then .error .indexOutOfRange
    else .ok { c with V := loadLoop (x + 1) 0 c.memory c.I c.V }
  else .ok c

/-- Go method `func (c *Chip8) Execute(opcode uint16)`: the opcode dispatch
`switch opcode & 0xF000` of the most complete draft, with the larger arms as
the named handlers above.  `rand` stands for the clock byte
`time.Now().Nanosecond()` consumed by opcode `CXNN`. -/
def Chip8.Execute (op rand : Nat) (c : Chip8) : Except ExecErr Chip8 :=
  if op &&& 0xF000 = 0x0000 then
    exec0 op c
  else if op &&& 0xF000 = 0x1000 then
    .ok { c with PC := op &&& 0x0FFF }
  else if op &&& 0xF000 = 0x2000 then
    exec2 op c
  else if op &&& 0xF000 = 0x3000 then
    let x := (op &&& 0x0F00) >>> 8
    let nn := op &&& 0x00FF
    .ok { c with PC := if c.V x = nn then (c.PC + 2) % 65536 else c.PC }
  else if op &&& 0xF000 = 0x4000 then
    let x := (op &&& 0x0F00) >>> 8
    let nn := op &&& 0x00FF
    .ok { c with PC := if c.V x ≠ nn then (c.PC + 2) % 65536 else c.PC }
  else if op &&& 0xF000 = 0x5000 then
    let x := (op &&& 0x0F00) >>> 8
    let y := (op &&& 0x00FF) >>> 4
    .ok { c with PC := if c.V x = c.V y then (c.PC + 2) % 65536 else c.PC }
  else if op &&& 0xF000 = 0x6000 then
    let x := (op &&& 0x0F00) >>> 8
    .ok { c with V := upd c.V x (op &&& 0x00FF) }
  else if op &&& 0xF000 = 0x7000 then
    let x := (op &&& 0x0F00) >>> 8
    .ok { c with V := upd c.V x ((c.V x + (op &&& 0x00FF)) % 256) }
  else if op &&& 0xF000 = 0x8000 then
    exec8 op c
  else if op &&& 0xF000 = 0x9000 then
    let x := (op &&& 0x0F00) >>> 8
    let y := (op &&& 0x00F0) >>> 4
    .ok { c with PC := if c.V x ≠ c.V y then (c.PC + 2) % 65536 else c.PC }
  else if op &&& 0xF000 = 0xA000 then
    .ok { c with I := op &&& 0x0FFF }
  else if op &&& 0xF000 = 0xB000 then
    .ok { c with PC := ((op &&& 0x0FFF) + c.V 0) % 65536 }
  else if op &&& 0xF000 = 0xC000 then
    let x := (op &&& 0x0F00) >>> 8
    let nn := op &&& 0x00FF
    let randByte := rand % 256
    .ok { c with V := upd c.V x (randByte &&& nn) }
  else if op &&& 0xF000 = 0xD000 then
    execD op c
  else if op &&& 0xF000 = 0xF000 then
    execF op c
  else .ok c

/-- Modelled from the spec: the documented instruction set, read off the §4.3
instruction list (clear, return, jump, call, the four conditional skips — the
two-register forms `5XY0`/`9XY0` with low nibble 0 —, immediate set/add, the
nine `8XYk` ALU ops with `k` in 0..7 or E, index set `ANNN`, index add `FX1E`,
jump with offset `BNNN`, random `CXNN`, draw `DXYN`, timer read/write
`FX07`/`FX15`/`FX18`, wait-key `FX0A`, font address `FX29`, BCD `FX33`, and
register dump/load `FX55`/`FX65`).  Used to compare the specified opcode
surface with the dispatch realised by `Execute`. -/
def documentedOp (op : Nat) : Prop :=
  op = 0x00E0 ∨ op = 0x00EE ∨
  op &&& 0xF000 = 0x1000 ∨ op &&& 0xF000 = 0x2000 ∨
  op &&& 0xF000 = 0x3000 ∨ op &&& 0xF000 = 0x4000 ∨
  (op &&& 0xF000 = 0x5000 ∧ op &&& 0x000F = 0x0) ∨
  op &&& 0xF000 = 0x6000 ∨ op &&& 0xF000 = 0x7000 ∨
  (op &&& 0xF000 = 0x8000 ∧
    (op &&& 0x000F = 0x0 ∨ op &&& 0x000F = 0x1 ∨ op &&& 0x000F = 0x2 ∨
     op &&& 0x000F = 0x3 ∨ op &&& 0x000F = 0x4 ∨ op &&& 0x000F = 0x5 ∨
     op &&& 0x000F = 0x6 ∨ op &&& 0x000F = 0x7 ∨ op &&& 0x000F = 0xE)) ∨
  (op &&& 0xF000 = 0x9000 ∧ op &&& 0x000F = 0x0) ∨
  op &&& 0xF000 = 0xA000 ∨ op &&& 0xF000 = 0xB000 ∨
  op &&& 0xF000 = 0xC000 ∨ op &&& 0xF000 = 0xD000 ∨
  (op &&& 0xF000 = 0xF000 ∧
    (op &&& 0x00FF = 0x07 ∨ op &&& 0x00FF = 0x15 ∨ op &&& 0x00FF = 0x18 ∨
     op &&& 0x00FF = 0x1E ∨ op &&& 0x00FF = 0x0A ∨ op &&& 0x00FF = 0x29 ∨
     op &&& 0x00FF = 0x33 ∨ op &&& 0x00FF = 0x55 ∨ op &&& 0x00FF = 0x65))

/-! ### Concrete machine states used in counterexamples and witnesses -/

/-- A machine whose register `V0` already holds 1 before `Init` is called. -/
def dirtyChip8 : Chip8 := { zeroChip8 with V := upd zeroChip8.V 0 1 }

/-- A fresh machine with `V0 = 5` and `V1 = 3`, the operands of a SUB test. -/
def subChip8 : Chip8 := { zeroChip8 with V := upd (upd zeroChip8.V 0 5) 1 3 }

/-- A fresh machine whose stack already holds 15 return addresses. -/
def sp15Chip8 : Chip8 := { zeroChip8 with SP := 15 }

/-- A fresh machine with a one-byte sprite `0x80` at address `0x300`,
`I = 0x300`, and the draw x-coordinate taken from `VF = 8`. -/
def drawVFChip8 : Chip8 :=
  { zeroChip8 with
    memory := upd zeroChip8.memory 0x300 0x80
    I := 0x300
    V := upd zeroChip8.V 0xF 8 }

/-! ### Bridge lemmas between bitwise operations and arithmetic -/

theorem and_shiftRight_distrib (a m n : Nat) :
    (a &&& m) >>> n = (a >>> n) &&& (m >>> n) := by
  apply Nat.eq_of_testBit_eq
  intro i
  simp [Nat.testBit_shiftRight, Nat.testBit_and]

theorem and_15_eq_mod (a : Nat) : a &&& 0x000F = a % 16 := by
  have h := Nat.and_pow_two_sub_one_eq_mod a 4
  norm_num at h
  exact h

theorem and_255_eq_mod (a : Nat) : a &&& 0x00FF = a % 256 := by
  have h := Nat.and_pow_two_sub_one_eq_mod a 8
  norm_num at h
  exact h

theorem and_4095_eq_mod (a : Nat) : a &&& 0x0FFF = a % 4096 := by
  have h := Nat.and_pow_two_sub_one_eq_mod a 12
  norm_num at h
  exact h

theorem hi_nibble_decomp (op : Nat) :
    ∃ j, j < 16 ∧ op &&& 0xF000 = 4096 * j := by
  have h1 : (op &&& 0xF000) % 4096 = 0 := by
    have e : (op &&& 0xF000) &&& 0x0FFF = (op &&& 0xF000) % 4096 :=
      and_4095_eq_mod _
    rw [← e, Nat.and_assoc]
    have e2 : (0xF000 : Nat) &&& 0x0FFF = 0xF000 % 4096 := and_4095_eq_mod _
    rw [e2]
    norm_num
  have h2 : op &&& 0xF000 ≤ 0xF000 := Nat.and_le_right
  exact ⟨(op &&& 0xF000) / 4096, by omega, by omega⟩

/-! ### Claim theorems -/

/-- C8: for every initial machine state, after exactly `k` ticks of the timer
goroutine the delay timer equals `max(DT - k, 0)`: it is decremented by
exactly one per tick while positive and never becomes negative. -/
theorem timer_dt_after_ticks (k : Nat) (c : Chip8) :
    ((Chip8.timerTicks k c).DT : Int) = max ((c.DT : Int) - k) 0 := by
  induction k generalizing c with
  | zero =>
    rw [Chip8.timerTicks]
    omega
  | succ k ih =>
    rw [Chip8.timerTicks, ih]
    simp only [Chip8.timerTick]
    split <;> omega

/-- C9: `LoadROM` fails with the ROM-too-large error exactly when the data
exceeds `4096 - 0x200 = 3584` bytes; on success the bytes land verbatim at
offset `0x200` and every other component of the state (and every memory byte
outside the copied range) is untouched.  On failure no state is produced at
all, so the machine is unchanged. -/
theorem loadROM_spec (c : Chip8) (data : List Nat) :
    (3584 < data.length → c.LoadROM data = .error .romTooLarge) ∧
    (data.length ≤ 3584 →
      ∃ c', c.LoadROM data = .ok c' ∧
        (∀ i, i < data.length → c'.memory (0x200 + i) = data.getD i 0) ∧
        (∀ a, a < 0x200 ∨ 0x200 + data.length ≤ a → c'.memory a = c.memory a) ∧
        c'.display = c.display ∧ c'.PC = c.PC ∧ c'.I = c.I ∧
        c'.stack = c.stack ∧ c'.SP = c.SP ∧ c'.V = c.V ∧
        c'.DT = c.DT ∧ c'.ST = c.ST ∧ c'.keys = c.keys) := by
  constructor
  · intro h
    rw [Chip8.LoadROM, if_pos (by omega)]
  · intro h
    rw [Chip8.LoadROM, if_neg (by omega)]
    refine ⟨_, rfl, ?_, ?_, rfl, rfl, rfl, rfl, rfl, rfl, rfl, rfl, rfl⟩
    · intro i hi
      show (if 0x200 ≤ 0x200 + i ∧ 0x200 + i < 0x200 + data.length
            then data.getD (0x200 + i - 0x200) 0
            else c.memory (0x200 + i)) = data.getD i 0
      rw [if_pos ⟨by omega, by omega⟩]
      congr 1
      omega
    · intro a ha
      show (if 0x200 ≤ a ∧ a < 0x200 + data.length
            then data.getD (a - 0x200) 0 else c.memory a) = c.memory a
      rw [if_neg (by omega)]

/-- C9 witness: a 3585-byte ROM is rejected as too large. -/
theorem loadROM_spec_witness :
    zeroChip8.LoadROM (List.replicate 3585 0) = .error .romTooLarge :=
  (loadROM_spec zeroChip8 (List.replicate 3585 0)).1
    (by rw [List.length_replicate]; norm_num)

/-- C5 witness data: the canonical and the code's extraction of the second
register index agree, so the skip fires exactly on `Vx = Vy`. -/
theorem skip_if_equal_canonical (op rand : Nat) (c : Chip8)
    (hop : op &&& 0xF000 = 0x5000) :
    c.Execute op rand =
      .ok { c with
            PC := if c.V ((op &&& 0x0F00) >>> 8) = c.V ((op &&& 0x00F0) >>> 4)
                  then (c.PC + 2) % 65536 else c.PC } := by
  have hy : (op &&& 0x00FF) >>> 4 = (op &&& 0x00F0) >>> 4 := by
    rw [and_shiftRight_distrib, and_shiftRight_distrib]
    norm_num [Nat.shiftRight_eq_div_pow]
  simp only [Chip8.Execute, hop, hy]
  norm_num

/-- C5 witness: applying the skip characterisation at opcode `0x5120` on a
fresh machine. -/
theorem skip_if_equal_canonical_witness :
    zeroChip8.Execute 0x5120 0 =
      .ok { zeroChip8 with
            PC := if zeroChip8.V ((0x5120 &&& 0x0F00) >>> 8) =
                     zeroChip8.V ((0x5120 &&& 0x00F0) >>> 4)
                  then (zeroChip8.PC + 2) % 65536 else zeroChip8.PC } :=
  skip_if_equal_canonical 0x5120 0 zeroChip8 (by decide)

/-- C10: executing `FX29` always sets the index register to
`(V[x] & 0x0F) * 5`, which is at most 75 and hence inside the 80-byte font
region, whatever `V[x]` holds. -/
theorem font_sprite_address (op rand : Nat) (c : Chip8)
    (hop : op &&& 0xF000 = 0xF000) (hlow : op &&& 0x00FF = 0x29) :
    ∃ c', c.Execute op rand = .ok c' ∧
      c'.I = (c.V ((op &&& 0x0F00) >>> 8) &&& 0x0F) * 5 ∧ c'.I ≤ 75 := by
  have hb : c.V ((op &&& 0x0F00) >>> 8) &&& 0x0F ≤ 0x0F := Nat.and_le_right
  have hexec : c.Execute op rand =
      .ok { c with I := (c.V ((op &&& 0x0F00) >>> 8) &&& 0x0F) * 5 } := by
    simp only [Chip8.Execute, execF, hop, hlow]
    norm_num
  refine ⟨_, hexec, rfl, ?_⟩
  show (c.V ((op &&& 0x0F00) >>> 8) &&& 0x0F) * 5 ≤ 75
  omega

/-- C10 witness: `FX29` at opcode `0xF029` on a fresh machine. -/
theorem font_sprite_address_witness :
    ∃ c', zeroChip8.Execute 0xF029 0 = .ok c' ∧
      c'.I = (zeroChip8.V ((0xF029 &&& 0x0F00) >>> 8) &&& 0x0F) * 5 ∧
      c'.I ≤ 75 :=
  font_sprite_address 0xF029 0 zeroChip8 (by decide) (by decide)

/-- C7: for every ADD opcode `8XY4` over byte-valued operand registers,
after `Execute` the flag register `VF` equals 1 iff the prior unsigned sum
of `Vx` and `Vy` exceeds 255, and (when `x ≠ 0xF`) `Vx` becomes that sum
modulo 256. -/
theorem add_sets_carry (op rand : Nat) (c : Chip8)
    (hop : op &&& 0xF000 = 0x8000) (hsub : op &&& 0x000F = 0x4)
    (ha : c.V ((op &&& 0x0F00) >>> 8) < 256)
    (hb : c.V ((op &&& 0x00F0) >>> 4) < 256) :
    ∃ c', c.Execute op rand = .ok c' ∧
      (c'.V 0xF = 1 ↔
        255 < c.V ((op &&& 0x0F00) >>> 8) + c.V ((op &&& 0x00F0) >>> 4)) ∧
      ((op &&& 0x0F00) >>> 8 ≠ 0xF →
        c'.V ((op &&& 0x0F00) >>> 8) =
          (c.V ((op &&& 0x0F00) >>> 8) + c.V ((op &&& 0x00F0) >>> 4)) % 256) := by
  have hexec : c.Execute op rand =
      .ok { c with
            V := upd (upd c.V ((op &&& 0x0F00) >>> 8)
                   (((c.V ((op &&& 0x0F00) >>> 8) +
                      c.V ((op &&& 0x00F0) >>> 4)) % 65536) &&& 0xFF)) 0xF
                 ((((c.V ((op &&& 0x0F00) >>> 8) +
                     c.V ((op &&& 0x00F0) >>> 4)) % 65536) >>> 8) &&& 0x1) } := by
    simp only [Chip8.Execute, exec8, hop, hsub]
    norm_num
  refine ⟨_, hexec, ?_, ?_⟩
  · simp only [upd]
    norm_num
    have h256 : ((c.V ((op &&& 0x0F00) >>> 8) +
        c.V ((op &&& 0x00F0) >>> 4)) % 65536) >>> 8 =
        ((c.V ((op &&& 0x0F00) >>> 8) +
        c.V ((op &&& 0x00F0) >>> 4)) % 65536) / 256 := by
      rw [Nat.shiftRight_eq_div_pow]
    rw [h256]
    omega
  · intro hx
    simp only [upd, if_neg hx]
    norm_num [and_255_eq_mod]

/-- C7 witness: `0x8014` with `V0 = 5`, `V1 = 3` (from `subChip8`). -/
theorem add_sets_carry_witness :
    ∃ c', subChip8.Execute 0x8014 0 = .ok c' ∧
      (c'.V 0xF = 1 ↔
        255 < subChip8.V ((0x8014 &&& 0x0F00) >>> 8) +
              subChip8.V ((0x8014 &&& 0x00F0) >>> 4)) ∧
      ((0x8014 &&& 0x0F00) >>> 8 ≠ 0xF →
        c'.V ((0x8014 &&& 0x0F00) >>> 8) =
          (subChip8.V ((0x8014 &&& 0x0F00) >>> 8) +
           subChip8.V ((0x8014 &&& 0x00F0) >>> 4)) % 256) :=
  add_sets_carry 0x8014 0 subChip8 (by decide) (by decide) (by decide) (by decide)

/-- C2: the failing input for the SUB no-borrow claim.  Executing `0x8015`
with `V0 = 5`, `V1 = 3` yields `V0 = 2` (the correct wraparound difference)
but `VF = 0`, although the prior operands satisfy `Vx > Vy`, for which the
claim and the specification require `VF = 1`: the code compares the
already-updated `V[x]` against `V[y]` instead of the prior values. -/
theorem sub_flag_failing_input :
    (subChip8.Execute 0x8015 0).map (fun c => (c.V 0, c.V 1, c.V 0xF)) =
      .ok (2, 3, 0) := by
  rfl

/-- C3 counterexample: with `SP = 15 < 16` the 16-entry stack still has a
free slot, yet the call opcode `0x2300` aborts with a stack overflow. -/
theorem call_overflow_at_sp15 :
    sp15Chip8.SP < 16 ∧ sp15Chip8.Execute 0x2300 0 = .error .stackOverflow :=
  ⟨by decide, by rfl⟩

/-- C3 amended: a call `2NNN` succeeds exactly when `SP < 15` — the code's
guard `int(SP)+1 >= len(stack)` rejects `SP = 15`, so the last stack slot is
never used and the effective call depth is 15 — in which case it pushes the
current PC, increments SP and sets PC to the 12-bit operand; with `SP ≥ 15`
it fails with `StackOverflow`. -/
theorem call_spec (op rand : Nat) (c : Chip8)
    (hop : op &&& 0xF000 = 0x2000) :
    (c.SP < 15 →
      c.Execute op rand =
        .ok { c with stack := upd c.stack c.SP c.PC, SP := c.SP + 1,
                     PC := op &&& 0x0FFF }) ∧
    (15 ≤ c.SP → c.Execute op rand = .error .stackOverflow) := by
  constructor
  · intro h
    have hc : ¬ (c.SP + 1 ≥ 16) := by omega
    simp only [Chip8.Execute, exec2, hop, hc]
    norm_num
  · intro h
    have hc : c.SP + 1 ≥ 16 := by omega
    simp only [Chip8.Execute, exec2, hop, hc]
    norm_num

/-- C3 witness: a call on a fresh machine pushes the return address and
jumps to `0x345`. -/
theorem call_spec_witness :
    zeroChip8.Execute 0x2345 0 =
      .ok { zeroChip8 with
            stack := upd zeroChip8.stack zeroChip8.SP zeroChip8.PC,
            SP := zeroChip8.SP + 1, PC := 0x2345 &&& 0x0FFF } :=
  (call_spec 0x2345 0 zeroChip8 (by decide)).1 (by decide)

/-- C1 counterexample: `Init` only writes the font and the program counter
(a fresh machine is zeroed by Go's zero value for `Chip8{}`, not by `Init`),
so from an initial state with `V0 = 1` the round trip `Init` then `LoadROM`
does not end with zeroed registers. -/
theorem init_load_dirty_registers :
    ¬ (∀ c', dirtyChip8.Init.LoadROM [] = .ok c' → c'.V 0 = 0) := by
  intro h
  exact absurd (h _ rfl) (by decide)

/-- C1 amended: starting from the Go zero value `Chip8{}`, running `Init`
and then `LoadROM rom` (with `rom` at most 3584 bytes) yields font bytes at
`memory[0..80)`, the ROM bytes at `memory[0x200..0x200+len)`, zero in every
other memory byte, all registers, index, stack, stack pointer, display,
timers and keys zero, and `PC = 0x200`. -/
theorem init_load_round_trip (rom : List Nat) (h : rom.length ≤ 3584) :
    ∃ c', zeroChip8.Init.LoadROM rom = .ok c' ∧
      c'.PC = 0x200 ∧
      (∀ a, a < 80 → c'.memory a = fontset.getD a 0) ∧
      (∀ i, i < rom.length → c'.memory (0x200 + i) = rom.getD i 0) ∧
      (∀ a, 80 ≤ a → a < 0x200 → c'.memory a = 0) ∧
      (∀ a, 0x200 + rom.length ≤ a → c'.memory a = 0) ∧
      (∀ i, c'.V i = 0) ∧ c'.I = 0 ∧ (∀ i, c'.stack i = 0) ∧ c'.SP = 0 ∧
      (∀ p q, c'.display p q = false) ∧
      c'.DT = 0 ∧ c'.ST = 0 ∧ (∀ i, c'.keys i = false) := by
  rw [Chip8.LoadROM, if_neg (by omega)]
  refine ⟨_, rfl, rfl, ?_, ?_, ?_, ?_, fun i => rfl, rfl, fun i => rfl, rfl,
         fun p q => rfl, rfl, rfl, fun i => rfl⟩
  · intro a ha
    show (if 0x200 ≤ a ∧ a < 0x200 + rom.length then rom.getD (a - 0x200) 0
          else zeroChip8.Init.memory a) = fontset.getD a 0
    rw [if_neg (by omega)]
    show (if a < 80 then fontset.getD a 0 else zeroChip8.memory a) =
         fontset.getD a 0
    rw [if_pos ha]
  · intro i hi
    show (if 0x200 ≤ 0x200 + i ∧ 0x200 + i < 0x200 + rom.length
          then rom.getD (0x200 + i - 0x200) 0
          else zeroChip8.Init.memory (0x200 + i)) = rom.getD i 0
    rw [if_pos ⟨by omega, by omega⟩]
    congr 1
    omega
  · intro a ha1 ha2
    show (if 0x200 ≤ a ∧ a < 0x200 + rom.length then rom.getD (a - 0x200) 0
          else zeroChip8.Init.memory a) = 0
    rw [if_neg (by omega)]
    show (if a < 80 then fontset.getD a 0 else zeroChip8.memory a) = 0
    rw [if_neg (by omega)]
    rfl
  · intro a ha
    show (if 0x200 ≤ a ∧ a < 0x200 + rom.length then rom.getD (a - 0x200) 0
          else zeroChip8.Init.memory a) = 0
    rw [if_neg (by omega)]
    show (if a < 80 then fontset.getD a 0 else zeroChip8.memory a) = 0
    rw [if_neg (by omega)]
    rfl

/-- C4 counterexample: opcode `0x5011` is not a documented instruction (the
documented two-register skip is `5XY0`), yet the code dispatches every
`5XYk` through the `case 0x5000` arm, so on a fresh machine (where
`V0 = V1`) `Execute 0x5011` moves the program counter from 0 to 2 instead of
leaving the state unchanged. -/
theorem undocumented_5011_moves_pc :
    ¬ documentedOp 0x5011 ∧
    (zeroChip8.Execute 0x5011 0).map Chip8.PC = .ok 2 ∧ zeroChip8.PC = 0 :=
  ⟨by unfold documentedOp; decide, rfl, rfl⟩

/-- C4 amended: every opcode outside the documented instruction set whose
high nibble is not 5 or 9 leaves the whole machine state unchanged by
`Execute`; the code additionally dispatches the undocumented `5XYk`/`9XYk`
(`k ≠ 0`) exactly as the skips `5XY0`/`9XY0`. -/
theorem unhandled_opcode_noop (op rand : Nat) (c : Chip8)
    (hdoc : ¬ documentedOp op)
    (h5 : op &&& 0xF000 ≠ 0x5000) (h9 : op &&& 0xF000 ≠ 0x9000) :
    c.Execute op rand = .ok c := by
  rw [documentedOp] at hdoc
  push_neg at hdoc
  obtain ⟨hE0, hEE, h1, h2, h3, h4, -, h6, h7, h8, -, hA, hB, hC, hD, hF⟩ :=
    hdoc
  rw [Chip8.Execute]
  by_cases h0c : op &&& 0xF000 = 0x0000
  · rw [if_pos h0c, exec0, if_neg hE0, if_neg hEE]
  rw [if_neg h0c, if_neg h1, if_neg h2, if_neg h3, if_neg h4, if_neg h5,
      if_neg h6, if_neg h7]
  by_cases h8c : op &&& 0xF000 = 0x8000
  · obtain ⟨k0, k1, k2, k3, k4, k5, k6, k7, kE⟩ := h8 h8c
    rw [if_pos h8c]
    simp only [exec8]
    rw [if_neg k0, if_neg k1, if_neg k2, if_neg k3, if_neg k4, if_neg k5,
        if_neg k6, if_neg k7, if_neg kE]
  rw [if_neg h8c, if_neg h9, if_neg hA, if_neg hB, if_neg hC, if_neg hD]
  by_cases hFc : op &&& 0xF000 = 0xF000
  · obtain ⟨m07, m15, m18, m1E, m0A, m29, m33, m55, m65⟩ := hF hFc
    rw [if_pos hFc]
    simp only [execF]
    rw [if_neg m07, if_neg m15, if_neg m18, if_neg m1E, if_neg m0A,
        if_neg m29, if_neg m33, if_neg m55, if_neg m65]
  rw [if_neg hFc]

/-- C4 witness: the key-skip opcode `0xE09E`, absent from this draft, is a
no-op for `Execute`. -/
theorem unhandled_opcode_noop_witness :
    zeroChip8.Execute 0xE09E 0 = .ok zeroChip8 :=
  unhandled_opcode_noop 0xE09E 0 zeroChip8
    (by unfold documentedOp; decide) (by decide) (by decide)

/-- A conditional pixel toggle, followed by an XOR, is the same as an XOR
with the conditional toggle mask. -/
theorem xor_if_toggle (p : Prop) [Decidable p] (a m : Bool) :
    xor (if p then !a else a) m = xor a (xor (if p then true else false) m) := by
  split <;> cases a <;> cases m <;> rfl

/-- The display output of the column loop is the input display XOR a toggle
mask that depends only on the sprite byte and the coordinates, never on the
incoming display or flag. -/
theorem drawCols_mask (fuel : Nat) : ∀ col sb xb yPos : Nat,
    ∃ M : Nat → Nat → Bool, ∀ (d : Nat → Nat → Bool) (f : Nat),
      ∃ g, drawCols fuel col sb xb yPos (d, f) =
        (fun p q => xor (d p q) (M p q), g) := by
  induction fuel with
  | zero =>
    intro col sb xb yPos
    refine ⟨fun _ _ => false, ?_⟩
    intro d f
    refine ⟨f, ?_⟩
    show (d, f) = (fun p q => xor (d p q) false, f)
    have hd : (fun p q => xor (d p q) false) = d := by
      funext p q
      exact Bool.xor_false (d p q)
    rw [hd]
  | succ n ih =>
    intro col sb xb yPos
    obtain ⟨M, hM⟩ := ih (col + 1) sb xb yPos
    by_cases hc : sb &&& (0x80 >>> col) ≠ 0
    · refine ⟨fun p q =>
          xor (if p = (xb + col) % 256 % 64 ∧ q = yPos then true else false)
              (M p q), ?_⟩
      intro d f
      obtain ⟨g, hg⟩ := hM
        (updD d ((xb + col) % 256 % 64) yPos
          (!(d ((xb + col) % 256 % 64) yPos)))
        (if d ((xb + col) % 256 % 64) yPos then 1 else f)
      refine ⟨g, ?_⟩
      simp only [drawCols, if_pos hc]
      rw [hg]
      simp only [Prod.mk.injEq]
      refine ⟨?_, trivial⟩
      funext p q
      simp only [updD]
      by_cases hpq : p = (xb + col) % 256 % 64 ∧ q = yPos
      · obtain ⟨hp, hq⟩ := hpq
        subst hp
        subst hq
        exact xor_if_toggle _ _ _
      · rw [if_neg hpq, if_neg hpq, Bool.false_xor]
    · refine ⟨M, ?_⟩
      intro d f
      obtain ⟨g, hg⟩ := hM d f
      refine ⟨g, ?_⟩
      simp only [drawCols, if_neg hc]
      exact hg

/-- The display output of the row loop is the input display XOR a toggle
mask depending only on the sprite memory, the index register and the
coordinates, provided every sprite byte is in bounds. -/
theorem drawRows_mask (fuel : Nat) : ∀ (row : Nat) (mem : Nat → Nat)
    (iReg xb yb : Nat), iReg + row + fuel ≤ 4096 →
    ∃ M : Nat → Nat → Bool, ∀ (d : Nat → Nat → Bool) (f : Nat),
      ∃ g, drawRows fuel row mem iReg xb yb (d, f) =
        .ok (fun p q => xor (d p q) (M p q), g) := by
  induction fuel with
  | zero =>
    intro row mem iReg xb yb hb
    refine ⟨fun _ _ => false, ?_⟩
    intro d f
    refine ⟨f, ?_⟩
    have hd : (fun p q => xor (d p q) false) = d := by
      funext p q
      exact Bool.xor_false (d p q)
    simp only [drawRows, hd]
  | succ n ih =>
    intro row mem iReg xb yb hb
    have hlt : ¬ ((iReg + row) % 65536 ≥ 4096) := by
      rw [Nat.mod_eq_of_lt (by omega)]
      omega
    obtain ⟨Mc, hMc⟩ := drawCols_mask 8 0 (mem ((iReg + row) % 65536)) xb
      ((yb + row % 256) % 256 % 32)
    obtain ⟨Mr, hMr⟩ := ih (row + 1) mem iReg xb yb (by omega)
    refine ⟨fun p q => xor (Mc p q) (Mr p q), ?_⟩
    intro d f
    obtain ⟨g1, hg1⟩ := hMc d f
    obtain ⟨g2, hg2⟩ := hMr (fun p q => xor (d p q) (Mc p q)) g1
    refine ⟨g2, ?_⟩
    simp only [drawRows, if_neg hlt]
    rw [hg1, hg2]
    congr 2
    funext p q
    cases d p q <;> cases Mc p q <;> cases Mr p q <;> rfl

/-- C6 counterexample: the draw opcode `0xDF01` takes its x-coordinate from
`VF`, which the draw itself overwrites, so the second of two successive
identical executions draws at a different coordinate and the display is not
restored — even though the sprite bytes are in bounds (`I + N ≤ 4096`). -/
theorem draw_twice_vf_not_involution :
    drawVFChip8.I + (0xDF01 &&& 0x000F) ≤ 4096 ∧
    ¬ (∀ c1 c2, drawVFChip8.Execute 0xDF01 0 = .ok c1 →
        c1.Execute 0xDF01 0 = .ok c2 → c2.display = drawVFChip8.display) := by
  refine ⟨by decide, fun h => ?_⟩
  have h2 := h _ _ rfl rfl
  have h3 := congrFun (congrFun h2 8) 0
  revert h3
  decide

/-- C6 amended: when the two coordinate registers are not `VF` (the draw
overwrites `VF` with the collision flag) and the sprite bytes are readable
(`I + N ≤ 4096`), executing the same `DXYN` opcode twice in succession
restores the display exactly: XOR-plotting is an involution. -/
theorem draw_twice_involution (op rand : Nat) (c : Chip8)
    (hop : op &&& 0xF000 = 0xD000)
    (hx : (op &&& 0x0F00) >>> 8 ≠ 0xF) (hy : (op &&& 0x00F0) >>> 4 ≠ 0xF)
    (hbound : c.I + (op &&& 0x000F) ≤ 4096) :
    ∃ c1 c2, c.Execute op rand = .ok c1 ∧ c1.Execute op rand = .ok c2 ∧
      c2.display = c.display := by
  obtain ⟨M, hM⟩ := drawRows_mask (op &&& 0x000F) 0 c.memory c.I
    (c.V ((op &&& 0x0F00) >>> 8)) (c.V ((op &&& 0x00F0) >>> 4)) (by omega)
  obtain ⟨g1, hg1⟩ := hM c.display 0
  obtain ⟨g2, hg2⟩ := hM (fun p q => xor (c.display p q) (M p q)) 0
  have hg2' : drawRows (op &&& 0x000F) 0 c.memory c.I
      (c.V ((op &&& 0x0F00) >>> 8)) (c.V ((op &&& 0x00F0) >>> 4))
      ((fun p q => xor (c.display p q) (M p q)), 0) = .ok (c.display, g2) := by
    rw [hg2]
    congr 1
    simp only [Prod.mk.injEq]
    refine ⟨?_, trivial⟩
    funext p q
    show xor (xor (c.display p q) (M p q)) (M p q) = c.display p q
    cases c.display p q <;> cases M p q <;> rfl
  have hvx : upd c.V 0xF g1 ((op &&& 0x0F00) >>> 8) =
      c.V ((op &&& 0x0F00) >>> 8) := by
    simp only [upd, if_neg hx]
  have hvy : upd c.V 0xF g1 ((op &&& 0x00F0) >>> 4) =
      c.V ((op &&& 0x00F0) >>> 4) := by
    simp only [upd, if_neg hy]
  have hexec1 : c.Execute op rand =
      .ok { c with display := fun p q => xor (c.display p q) (M p q),
                   V := upd c.V 0xF g1 } := by
    simp only [Chip8.Execute, execD, hop]
    norm_num
    rw [hg1]
  have hexec2 : Chip8.Execute op rand
      { c with display := fun p q => xor (c.display p q) (M p q),
               V := upd c.V 0xF g1 } =
      .ok { c with display := c.display,
                   V := upd (upd c.V 0xF g1) 0xF g2 } := by
    simp only [Chip8.Execute, execD, hop]
    norm_num
    rw [hvx, hvy, hg2']
  exact ⟨_, _, hexec1, hexec2, rfl⟩

/-- C6 witness: drawing the (blank) sprite at `I = 0` twice on a fresh
machine with opcode `0xD001` restores the display. -/
theorem draw_twice_involution_witness :
    ∃ c1 c2, zeroChip8.Execute 0xD001 0 = .ok c1 ∧
      c1.Execute 0xD001 0 = .ok c2 ∧ c2.display = zeroChip8.display :=
  draw_twice_involution 0xD001 0 zeroChip8 (by decide) (by decide) (by decide)
    (by decide)

/-- C1 witness: `Init` then loading the one-byte ROM `[0xAB]` from the zero
machine puts `0xAB` at `0x200` with `PC = 0x200`. -/
theorem init_load_round_trip_witness :
    ∃ c', zeroChip8.Init.LoadROM [0xAB] = .ok c' ∧ c'.PC = 0x200 ∧
      c'.memory 0x200 = 0xAB := by
  obtain ⟨c', h1, h2, _, hmem, _⟩ := init_load_round_trip [0xAB] (by norm_num)
  exact ⟨c', h1, h2, by simpa using hmem 0 (by norm_num)⟩

end Chip8Spec
